/-
Verification of the department-matching and aggregation pipeline of
`app.py` (Ficha Territorial).  The Python source is shallowly embedded:
pandas DataFrames become `Table` (a column-name list plus positionally
aligned rows of `Cell`s), pure Python functions become Lean functions, and
code that can raise becomes `Except String`.
-/
import Mathlib

namespace Ficha

/-! ## Text normalizer: `norm_text` (app.py lines 12-22)

`norm_text(x)` does, in order: `str(x).strip().upper()`, Unicode NFD
decomposition with combining marks (category Mn) removed, the substitution
`re.sub(r"[^A-Z0-9\s]", " ", s)`, the substitution `re.sub(r"\s+", " ", s)`
and a final `strip()`.  The embedding works over `List Char`.

Unicode modelling notes: `pySpace` is the ASCII part of Python's `\s`
class and of `str.strip`'s default set; `pyUpperChar` models `str.upper`
on ASCII and on the Latin-1 letter block U+00E0..U+00FE (everything except
`÷`), which is the range the workbook's Spanish text uses; `nfdChar`
decomposes the precomposed Spanish uppercase vowels/consonants and leaves
every other character alone; `isMn` is the combining-diacritics block
U+0300..U+036F.  None of the theorems below depend on this partial table
being complete, except the concrete evaluations, which only use characters
the table covers. -/

def pySpace (c : Char) : Bool :=
  c.toNat == 32 || c.toNat == 9 || c.toNat == 10 || c.toNat == 13
    || c.toNat == 11 || c.toNat == 12

/-- Python `str.strip()` on a character list: drop `pySpace` characters
from both ends. -/
def pyStripList (l : List Char) : List Char :=
  ((l.dropWhile pySpace).reverse.dropWhile pySpace).reverse

/-- Python `str.upper()`, character-wise (ASCII plus Latin-1 letters). -/
def pyUpperChar (c : Char) : Char :=
  if 97 ≤ c.toNat ∧ c.toNat ≤ 122 then Char.ofNat (c.toNat - 32)
  else if 0xE0 ≤ c.toNat ∧ c.toNat ≤ 0xFE ∧ c.toNat ≠ 0xF7 then Char.ofNat (c.toNat - 32)
  else c

/-- NFD decomposition of the precomposed uppercase Spanish letters; only
consulted for code points ≥ U+00C0. -/
def nfdTable (c : Char) : List Char :=
  if c = 'Á' then ['A', Char.ofNat 0x301]
  else if c = 'É' then ['E', Char.ofNat 0x301]
  else if c = 'Í' then ['I', Char.ofNat 0x301]
  else if c = 'Ó' then ['O', Char.ofNat 0x301]
  else if c = 'Ú' then ['U', Char.ofNat 0x301]
  else if c = 'Ñ' then ['N', Char.ofNat 0x303]
  else if c = 'Ü' then ['U', Char.ofNat 0x308]
  else if c = 'À' then ['A', Char.ofNat 0x300]
  else if c = 'È' then ['E', Char.ofNat 0x300]
  else if c = 'Ì' then ['I', Char.ofNat 0x300]
  else if c = 'Ò' then ['O', Char.ofNat 0x300]
  else if c = 'Ù' then ['U', Char.ofNat 0x300]
  else [c]

/-- `unicodedata.normalize("NFD", ·)`, character-wise. -/
def nfdChar (c : Char) : List Char :=
  if c.toNat < 0xC0 then [c] else nfdTable c

/-- Unicode category Mn (combining marks), restricted to the combining
diacritical marks block actually produced by `nfdChar`. -/
def isMn (c : Char) : Bool :=
  0x300 ≤ c.toNat && c.toNat ≤ 0x36F

def isAZ09 (c : Char) : Bool :=
  (65 ≤ c.toNat && c.toNat ≤ 90) || (48 ≤ c.toNat && c.toNat ≤ 57)

/-- The substitution `re.sub(r"[^A-Z0-9\s]", " ", s)`, character-wise. -/
def keepChar (c : Char) : Char :=
  if isAZ09 c || pySpace c then c else ' '

/-- Worker for `re.sub(r"\s+", " ", s)`: the flag records whether the
previous input character was whitespace (in which case further whitespace
is dropped instead of emitting another space). -/
def collapseGo : List Char → Bool → List Char
  | [], _ => []
  | c :: rest, prev =>
    if pySpace c then
      cond prev (collapseGo rest true) (' ' :: collapseGo rest true)
    else c :: collapseGo rest false

/-- `re.sub(r"\s+", " ", s)`: every maximal whitespace run becomes one space. -/
def collapseWs (l : List Char) : List Char :=
  collapseGo l false

/-- `norm_text` (app.py lines 12-22) on the characters of a string. -/
def normChars (l : List Char) : List Char :=
  pyStripList
    (collapseWs
      (((((pyStripList l).map pyUpperChar).flatMap nfdChar).filter
          (fun c => !(isMn c))).map keepChar))

/-- `norm_text(x)`; `none` models Python `None`. -/
def norm_text (x : Option String) : String :=
  match x with
  | none => ""
  | some s => ⟨normChars s.data⟩

example : norm_text (some "Bogotá, D.C.") = "BOGOTA D C" := by decide
example : norm_text (some "  múltiples   espacios  ") = "MULTIPLES ESPACIOS" := by decide
example : norm_text (some "bogota") = norm_text (some "BOGOTÁ") := by decide

/-! ## Tables

A pandas `DataFrame` is embedded as a list of column names plus rows of
cells positionally aligned with the columns.  After `load_data`
(app.py lines 57-78) every object column has been passed through
`astype(str).str.strip()`, so text cells are plain strings; `Cell.null`
models a missing value (`NaN`) in a non-object column and `Cell.num` a
numeric value (the coerced "VALOR APORTE (USD)" column). -/

inductive Cell where
  | null
  | str (s : String)
  | num (v : Int)
  deriving DecidableEq, Repr

structure Table where
  cols : List String
  rows : List (List Cell)
  deriving DecidableEq, Repr

/-- Index of a column label, `none` when the label is absent. -/
def Table.colIdx (t : Table) (c : String) : Option Nat :=
  t.cols.findIdx? (· = c)

/-- The cell of row `r` in column `c` of a table shaped like `t`
(models `df[c]` row-wise; only used when `c` is present). -/
def Table.cellAt (t : Table) (c : String) (r : List Cell) : Cell :=
  match t.colIdx c with
  | some i => r.getD i .null
  | none => .null

/-- `str(x)` / `Series.astype(str)` on a single cell; pandas renders a
float `NaN` as `"nan"`. -/
def cellAstypeStr : Cell → String
  | .null => "nan"
  | .str s => s
  | .num v => toString v

/-- `norm_text` applied to a cell by `Series.map(norm_text)`: `None` hits
the `x is None` branch, any other value goes through `str(x)`. -/
def normCell : Cell → String
  | .null => norm_text none
  | .str s => norm_text (some s)
  | .num v => norm_text (some (toString v))

/-! ## Department filter (app.py lines 103-127) -/

/-- The row selection `df[df["DEPT_NORM"] == dept_norm]` on the
post-assignment table, returned alongside that table. -/
def deptNormSel (t' : Table) (dn : String) : Except String (Table × Table) :=
  match t'.colIdx "DEPT_NORM" with
  | none => .error "KeyError: DEPT_NORM"
  | some j =>
    .ok (t', ⟨t'.cols, t'.rows.filter (fun r => r.getD j .null == .str dn)⟩)

/-- One `df["DEPT_NORM"] = df[deptCol].map(norm_text)` assignment followed
by the boolean row selection `df[df["DEPT_NORM"] == dept_norm]`
(app.py lines 104/107 and 110-114).  Returns the post-assignment table
(the source mutates `df` in place) together with the selected subset;
errors model the `KeyError` a missing department column raises. -/
def deptNormStep (t : Table) (deptCol : String) (dn : String) :
    Except String (Table × Table) :=
  match t.colIdx deptCol with
  | none => .error ("KeyError: " ++ deptCol)
  | some i =>
    match t.colIdx "DEPT_NORM" with
    | some j =>
      deptNormSel
        ⟨t.cols, t.rows.map (fun r => r.set j (Cell.str (normCell (r.getD i .null))))⟩ dn
    | none =>
      deptNormSel
        ⟨t.cols ++ ["DEPT_NORM"],
         t.rows.map (fun r => r ++ [Cell.str (normCell (r.getD i .null))])⟩ dn

/-- `df.head(1)` (app.py line 107). -/
def Table.head1 (t : Table) : Table :=
  ⟨t.cols, t.rows.take 1⟩

/-! ### Minimal regex engine for `Series.str.contains`

`str.contains(pat, ...)` interprets `pat` as a regular expression
(`re.search`).  The selections fed to it are department labels, so the
model supports the pattern class actually reachable from them: a sequence
of literal characters and the `.` wildcard (which matches any character
except a newline).  `reSearch` is `re.search` for that class. -/

inductive RTok where
  | lit (c : Char)
  | dot
  deriving DecidableEq, Repr

def compilePat (p : List Char) : List RTok :=
  p.map (fun c => if c = '.' then .dot else .lit c)

def tokMatch : RTok → Char → Bool
  | .lit c, d => c == d
  | .dot, d => d != '\n'

/-- Does the token list match a prefix of the character list? -/
def matchHere : List RTok → List Char → Bool
  | [], _ => true
  | _ :: _, [] => false
  | t :: ts, c :: cs => tokMatch t c && matchHere ts cs

/-- Does the token list match anywhere in the character list? -/
def reSearch : List RTok → List Char → Bool
  | toks, [] => matchHere toks []
  | toks, c :: cs => matchHere toks (c :: cs) || reSearch toks cs

/-- `Series.str.contains(pat, na=False)` on one cell (case-sensitive,
regex interpretation); applied after `astype(str)` in the source, so the
cell is first rendered as a string. -/
def pdStrContains (pat : String) (c : Cell) : Bool :=
  reSearch (compilePat pat.data) (cellAstypeStr c).data

/-- Literal (non-regex) substring test, used to compare the code's regex
matching against the spec's "literal substring" wording. -/
def substrB : List Char → List Char → Bool
  | n, [] => n.isEmpty
  | n, c :: rest => n.isPrefixOf (c :: rest) || substrB n rest

/-- The `colcol` filter (app.py lines 117-121):

`colcol[(colcol.get(C1, "").astype(str) == dept)
 | (colcol.get(C2, "").astype(str).str.contains(dept, na=False))
 | (colcol.get(C3, "").astype(str).str.contains(dept, na=False))]`

`DataFrame.get(c, "")` yields the scalar string `""` when column `c` is
absent, and `"".astype(str)` raises `AttributeError`; hence the filter
errors whenever any of the three columns is missing. -/
def colcolFilter (t : Table) (dept : String) : Except String Table :=
  match t.colIdx "DEPARTAMENTO EN EL QUE SE DESARROLLÓ",
        t.colIdx "DEPARTAMENTOS PARTICIPANTES",
        t.colIdx "DEPARTAMENTOS MAY" with
  | some i1, some i2, some i3 =>
    .ok ⟨t.cols, t.rows.filter (fun r =>
      (cellAstypeStr (r.getD i1 .null) == dept)
      || pdStrContains dept (r.getD i2 .null)
      || pdStrContains dept (r.getD i3 .null))⟩
  | _, _, _ =>
    .error "AttributeError: str object has no attribute astype"

/-- The `contrapartidas` filter (app.py lines 123-127):
`contrapartidas[contrapartidas["Departamento"] == dept]` when the column
exists, else `contrapartidas.iloc[0:0]`. -/
def contrFilter (t : Table) (dept : String) : Table :=
  match t.colIdx "Departamento" with
  | some i => ⟨t.cols, t.rows.filter (fun r => r.getD i .null == .str dept)⟩
  | none => ⟨t.cols, []⟩

/-- The six loaded tables (app.py line 97). -/
structure Dataset where
  infogeneral : Table
  plan : Table
  ciclope : Table
  colcol : Table
  contrapartidas : Table
  proyectos : Table
  deriving DecidableEq, Repr

/-- Post-state of the module-level filtering code: the (possibly mutated)
tables together with the per-department subsets. -/
structure FilterOut where
  infogeneral2 : Table
  ciclope2 : Table
  proyectos2 : Table
  colcol2 : Table
  contrapartidas2 : Table
  info : Table
  cic_dept : Table
  proj_dept : Table
  colcol_dept : Table
  contr_dept : Table
  deriving DecidableEq, Repr

/-- The whole department-filter block (app.py lines 103-127) for a
selected department `dept`. -/
def filterByDepartment (ds : Dataset) (dept : String) : Except String FilterOut :=
  match deptNormStep ds.infogeneral "Departamento" (norm_text (some dept)) with
  | .error e => .error e
  | .ok (info2, infoSel) =>
    match deptNormStep ds.ciclope "DEPARTAMENTO" (norm_text (some dept)) with
    | .error e => .error e
    | .ok (cic2, cicSel) =>
      match deptNormStep ds.proyectos "DEPARTAMENTO" (norm_text (some dept)) with
      | .error e => .error e
      | .ok (proj2, projSel) =>
        match colcolFilter ds.colcol dept with
        | .error e => .error e
        | .ok colcolSel =>
          .ok ⟨info2, cic2, proj2, ds.colcol, ds.contrapartidas,
               infoSel.head1, cicSel, projSel, colcolSel,
               contrFilter ds.contrapartidas dept⟩

/-! ## Aggregator: `top_by_sum` (app.py lines 81-90)

`df.groupby(group_col, dropna=False)[value_col].sum()
  .sort_values(ascending=False).head(n).reset_index()`.

Null group keys form their own group (`dropna=False`).  The value column
is the numeric "VALOR APORTE (USD)" column (coerced at load time with
invalid/missing → 0), so a cell's numeric value is read with missing → 0.
pandas does not specify the order of equal sums under `sort_values`
(quicksort); the model fixes a deterministic stable descending sort,
which realises one of the permitted tie-breaks. -/

def cellNum : Cell → Int
  | .num v => v
  | _ => 0

/-- Sort key: descending by summed value. -/
def descBy (a b : Cell × Int) : Prop := b.2 ≤ a.2

instance : DecidableRel descBy := fun a b => inferInstanceAs (Decidable (b.2 ≤ a.2))

instance : IsTotal (Cell × Int) descBy := ⟨fun a b => le_total b.2 a.2⟩

instance : IsTrans (Cell × Int) descBy :=
  ⟨fun _ _ _ h1 h2 => le_trans h2 h1⟩

/-- `top_by_sum(df, group_col, value_col, n)` as a list of
(group key, summed value) pairs; the empty-table / missing-column cases
return the empty list (the source returns an empty frame). -/
def top_by_sum (t : Table) (group_col value_col : String) (n : Nat) :
    List (Cell × Int) :=
  if t.rows.isEmpty then []
  else
    match t.colIdx group_col, t.colIdx value_col with
    | some gi, some vi =>
      (List.insertionSort descBy
        ((t.rows.map (fun r => r.getD gi .null)).dedup.map (fun k =>
          (k, ((t.rows.filter (fun r => r.getD gi .null == k)).map
              (fun r => cellNum (r.getD vi .null))).sum)))).take n
    | _, _ => []

/-! ## Table loader: `read_named_table` (app.py lines 34-54)

A workbook is a list of sheets; each sheet carries its named tables as an
association list from table name to the rectangular region the table's
`ref` denotes.  A `ref` always spans at least one row, so a region is a
header row (whose cells become column labels) plus the data rows.  The
loader scans the sheets in order and raises `KeyError` (the spec's
`TableNotFoundError`) when no sheet defines the name. -/

structure Grid where
  header : List String
  body : List (List Cell)
  deriving DecidableEq, Repr

structure Sheet where
  tables : List (String × Grid)
  deriving DecidableEq, Repr

def read_named_table : List Sheet → String → Except String Table
  | [], name => .error ("KeyError: No encontré la tabla: " ++ name)
  | ws :: rest, name =>
    match ws.tables.lookup name with
    | some g => .ok ⟨g.header, g.body⟩
    | none => read_named_table rest name

/-- Modelled from the spec (§4.2, "Fails with `TableNotFoundError` when no
sheet defines a table with that name"): the first sheet's definition of
the requested named table, if any — the claim-side description that
`read_named_table` is compared against. -/
def firstNamedGrid : List Sheet → String → Option Grid
  | [], _ => none
  | ws :: rest, name =>
    match ws.tables.lookup name with
    | some g => some g
    | none => firstNamedGrid rest name

/-! ## Tab-1 detail view and tab-2 listing/search/export

Lines 153-164 transpose the single `info` row into (Campo, Valor) pairs
and drop the technical fields whose lower-cased, stripped name is
"porcentaje de avance" or "dept_norm".  Lines 246-264 optionally filter
the project listing by a case-insensitive regex search over the candidate
columns present, display it, and expose it as a UTF-8 CSV download named
`proyectos_aod_<dept>.csv`. -/

def pyLowerChar (c : Char) : Char :=
  if 65 ≤ c.toNat ∧ c.toNat ≤ 90 then Char.ofNat (c.toNat + 32)
  else if 0xC0 ≤ c.toNat ∧ c.toNat ≤ 0xDE ∧ c.toNat ≠ 0xD7 then Char.ofNat (c.toNat + 32)
  else c

def pyLowerStrip (s : String) : String :=
  ⟨pyStripList (s.data.map pyLowerChar)⟩

/-- The "Ver registro completo" table (app.py lines 153-164): the first
info row transposed to (Campo, Valor) pairs, technical fields removed. -/
def tab1Detail (info : Table) : List (String × Cell) :=
  (info.cols.zip (info.rows.headD [])).filter
    (fun p => !(pyLowerStrip p.1 == "porcentaje de avance"
                || pyLowerStrip p.1 == "dept_norm"))

def candidate_cols : List String :=
  ["NOMBRE INTERVENCION", "OBJETIVO GENERAL", "NOMBRE ACTOR",
   "MUNICIPIO", "ODS", "META ODS"]

def tokMatchCI : RTok → Char → Bool
  | .lit c, d => pyLowerChar c == pyLowerChar d
  | .dot, d => d != '\n'

def matchHereCI : List RTok → List Char → Bool
  | [], _ => true
  | _ :: _, [] => false
  | t :: ts, c :: cs => tokMatchCI t c && matchHereCI ts cs

def reSearchCI : List RTok → List Char → Bool
  | toks, [] => matchHereCI toks []
  | toks, c :: cs => matchHereCI toks (c :: cs) || reSearchCI toks cs

/-- `Series.str.contains(search, case=False, na=False)` on one cell. -/
def pdStrContainsCI (pat : String) (c : Cell) : Bool :=
  reSearchCI (compilePat pat.data) (cellAstypeStr c).data

/-- The tab-2 frame (app.py lines 246-257): `df = proj_dept.copy()`, then,
when the stripped search text and the frame are both nonempty and at
least one candidate column is present, the rows matching the
case-insensitive search in any present candidate column. -/
def tab2Df (proj_dept : Table) (searchRaw : String) : Table :=
  if (⟨pyStripList searchRaw.data⟩ : String) ≠ "" ∧ proj_dept.rows ≠ [] then
    if candidate_cols.filter (fun c => (proj_dept.colIdx c).isSome) ≠ [] then
      ⟨proj_dept.cols,
       proj_dept.rows.filter (fun r =>
         (candidate_cols.filter (fun c => (proj_dept.colIdx c).isSome)).any
           (fun c => pdStrContainsCI ⟨pyStripList searchRaw.data⟩ (proj_dept.cellAt c r)))⟩
    else proj_dept
  else proj_dept

/-! ### CSV serialization: `df.to_csv(index=False)` -/

/-- One CSV field under pandas' default QUOTE_MINIMAL rule. -/
def csvField (s : String) : String :=
  if s.data.any (fun c => c = ',' || c = '"' || c = '\n' || c = '\r') then
    "\"" ++ ⟨s.data.flatMap (fun c => if c = '"' then ['"', '"'] else [c])⟩ ++ "\""
  else s

/-- A null cell serializes to the empty field; other cells to their
string rendering. -/
def cellCsv : Cell → String
  | .null => ""
  | .str s => s
  | .num v => toString v

def csvRow (fields : List String) : String :=
  String.intercalate "," (fields.map csvField) ++ "\n"

/-- `df.to_csv(index=False)`: the header row followed by each data row,
in order. -/
def to_csv (t : Table) : String :=
  csvRow t.cols ++ String.join (t.rows.map (fun r => csvRow (r.map cellCsv)))

/-- The download payload (app.py lines 260-264): file name and CSV text
(the source UTF-8-encodes the text with `.encode("utf-8")`). -/
def tab2Export (proj_dept : Table) (dept searchRaw : String) : String × String :=
  ("proyectos_aod_" ++ dept ++ ".csv", to_csv (tab2Df proj_dept searchRaw))

/-! ## Lemmas about the normalizer -/

/-- Output characters never have two consecutive whitespace characters. -/
def noTwoWs (a b : Char) : Prop := ¬(pySpace a = true ∧ pySpace b = true)

theorem pySpace_of_isAZ09 {c : Char} (h : isAZ09 c = true) : pySpace c = false := by
  simp only [isAZ09, Bool.or_eq_true, Bool.and_eq_true, decide_eq_true_eq] at h
  simp only [pySpace, Bool.or_eq_false_iff, beq_eq_false_iff_ne, ne_eq]
  omega

theorem toNat_le_90 {c : Char} (h : isAZ09 c = true ∨ c = ' ') : c.toNat ≤ 90 := by
  rcases h with h | rfl
  · simp only [isAZ09, Bool.or_eq_true, Bool.and_eq_true, decide_eq_true_eq] at h
    omega
  · decide

theorem collapseGo_mem : ∀ (l : List Char) (b : Bool) (c : Char),
    c ∈ collapseGo l b → c = ' ' ∨ (c ∈ l ∧ pySpace c = false) := by
  intro l
  induction l with
  | nil => intro b c h; simp [collapseGo] at h
  | cons a rest ih =>
    intro b c h
    by_cases ha : pySpace a
    · have key : ∀ d, d ∈ collapseGo rest true → d = ' ' ∨ (d ∈ a :: rest ∧ pySpace d = false) := by
        intro d hd
        rcases ih true d hd with h2 | ⟨h2, h3⟩
        · exact Or.inl h2
        · exact Or.inr ⟨List.mem_cons_of_mem _ h2, h3⟩
      cases b with
      | true =>
        rw [collapseGo, if_pos ha, cond_true] at h
        exact key c h
      | false =>
        rw [collapseGo, if_pos ha, cond_false] at h
        rcases List.mem_cons.mp h with h | h
        · exact Or.inl h
        · exact key c h
    · rw [collapseGo, if_neg ha] at h
      rcases List.mem_cons.mp h with h | h
      · subst h
        exact Or.inr ⟨List.mem_cons_self _ _, by simpa using ha⟩
      · rcases ih false c h with h2 | ⟨h2, h3⟩
        · exact Or.inl h2
        · exact Or.inr ⟨List.mem_cons_of_mem _ h2, h3⟩

theorem collapseGo_true_head : ∀ {l : List Char} {c : Char},
    (collapseGo l true).head? = some c → pySpace c = false := by
  intro l
  induction l with
  | nil => intro c h; simp [collapseGo] at h
  | cons a rest ih =>
    intro c h
    by_cases ha : pySpace a
    · rw [collapseGo, if_pos ha, cond_true] at h
      exact ih h
    · rw [collapseGo, if_neg ha] at h
      simp only [List.head?_cons, Option.some.injEq] at h
      subst h
      simpa using ha

theorem collapseGo_chain : ∀ (l : List Char) (b : Bool),
    List.Chain' noTwoWs (collapseGo l b) := by
  intro l
  induction l with
  | nil => intro b; simp [collapseGo]
  | cons a rest ih =>
    intro b
    by_cases ha : pySpace a
    · cases b with
      | true =>
        rw [collapseGo, if_pos ha, cond_true]
        exact ih true
      | false =>
        rw [collapseGo, if_pos ha, cond_false]
        refine List.chain'_cons'.mpr ⟨?_, ih true⟩
        intro y hy hcontra
        exact absurd hcontra.2 (by simp [collapseGo_true_head hy])
    · rw [collapseGo, if_neg ha]
      refine List.chain'_cons'.mpr ⟨?_, ih false⟩
      intro y _ hcontra
      exact absurd hcontra.1 (by simpa using ha)

theorem head?_dropWhileP {α} {p : α → Bool} : ∀ {l : List α} {c : α},
    (l.dropWhile p).head? = some c → p c = false := by
  intro l
  induction l with
  | nil => intro c h; simp [List.dropWhile] at h
  | cons a rest ih =>
    intro c h
    rw [List.dropWhile_cons] at h
    by_cases hp : p a
    · rw [if_pos hp] at h; exact ih h
    · rw [if_neg hp] at h
      simp only [List.head?_cons, Option.some.injEq] at h
      subst h
      simpa using hp

theorem rstrip_isPrefixOfSelf {α} (p : α → Bool) (l : List α) :
    ((l.reverse.dropWhile p).reverse) <+: l := by
  obtain ⟨t, ht⟩ := List.dropWhile_suffix (l := l.reverse) p
  exact ⟨t.reverse, by rw [← List.reverse_append, ht, List.reverse_reverse]⟩

theorem head?_of_isPrefixHead {α} {l₁ l₂ : List α} (h : l₁ <+: l₂) {c : α}
    (hc : l₁.head? = some c) : l₂.head? = some c := by
  obtain ⟨t, rfl⟩ := h
  cases l₁ with
  | nil => simp at hc
  | cons a r =>
    simp only [List.head?_cons, Option.some.injEq] at hc
    simp [hc]

theorem pyStrip_head {l : List Char} {c : Char}
    (h : (pyStripList l).head? = some c) : pySpace c = false := by
  unfold pyStripList at h
  have h2 := head?_of_isPrefixHead (rstrip_isPrefixOfSelf pySpace (l.dropWhile pySpace)) h
  exact head?_dropWhileP h2

theorem pyStrip_getLast {l : List Char} {c : Char}
    (h : (pyStripList l).getLast? = some c) : pySpace c = false := by
  unfold pyStripList at h
  rw [List.getLast?_reverse] at h
  exact head?_dropWhileP h

theorem pyStrip_mem {l : List Char} {c : Char} (h : c ∈ pyStripList l) : c ∈ l := by
  unfold pyStripList at h
  rw [List.mem_reverse] at h
  have h2 := (List.dropWhile_sublist pySpace).subset h
  rw [List.mem_reverse] at h2
  exact (List.dropWhile_sublist pySpace).subset h2

theorem chain'_pyStrip {l : List Char} (h : List.Chain' noTwoWs l) :
    List.Chain' noTwoWs (pyStripList l) := by
  have hsymm : ∀ a b : Char, noTwoWs a b → noTwoWs b a := by
    intro a b hab hc
    exact hab ⟨hc.2, hc.1⟩
  have h1 : List.Chain' noTwoWs (l.dropWhile pySpace) :=
    h.suffix (List.dropWhile_suffix pySpace)
  have h2 : List.Chain' noTwoWs (l.dropWhile pySpace).reverse :=
    List.chain'_reverse.mpr (h1.imp hsymm)
  have h3 : List.Chain' noTwoWs ((l.dropWhile pySpace).reverse.dropWhile pySpace) :=
    h2.suffix (List.dropWhile_suffix pySpace)
  exact List.chain'_reverse.mpr (h3.imp hsymm)

theorem keepChar_ok (c : Char) :
    isAZ09 (keepChar c) = true ∨ pySpace (keepChar c) = true := by
  unfold keepChar
  by_cases h : (isAZ09 c || pySpace c) = true
  · rw [if_pos h]
    exact Bool.or_eq_true .. ▸ h
  · rw [if_neg h]
    right; decide

theorem normChars_mem {l : List Char} {c : Char} (h : c ∈ normChars l) :
    isAZ09 c = true ∨ c = ' ' := by
  unfold normChars at h
  have h1 := pyStrip_mem h
  unfold collapseWs at h1
  rcases collapseGo_mem _ _ _ h1 with h2 | ⟨h2, hns⟩
  · exact Or.inr h2
  · rcases List.mem_map.mp h2 with ⟨d, _, rfl⟩
    rcases keepChar_ok d with h3 | h3
    · exact Or.inl h3
    · rw [h3] at hns; cases hns

theorem normChars_head (l : List Char) : (normChars l).head? ≠ some ' ' := by
  intro h
  unfold normChars at h
  exact absurd (pyStrip_head h) (by decide)

theorem normChars_getLast (l : List Char) : (normChars l).getLast? ≠ some ' ' := by
  intro h
  unfold normChars at h
  exact absurd (pyStrip_getLast h) (by decide)

theorem normChars_chain (l : List Char) : List.Chain' noTwoWs (normChars l) := by
  unfold normChars collapseWs
  exact chain'_pyStrip (collapseGo_chain _ _)

/-! ### Idempotence of the normalizer -/

theorem pyUpperChar_fix {c : Char} (h : isAZ09 c = true ∨ c = ' ') :
    pyUpperChar c = c := by
  have hb := toNat_le_90 h
  unfold pyUpperChar
  rw [if_neg (by omega), if_neg (by omega)]

theorem nfdChar_fix {c : Char} (h : isAZ09 c = true ∨ c = ' ') :
    nfdChar c = [c] := by
  have hb := toNat_le_90 h
  unfold nfdChar
  rw [if_pos (by omega)]

theorem isMn_fix {c : Char} (h : isAZ09 c = true ∨ c = ' ') : isMn c = false := by
  have hb := toNat_le_90 h
  have h2 : ¬ (768 ≤ c.toNat) := by omega
  simp [isMn, h2]

theorem keepChar_fix {c : Char} (h : isAZ09 c = true ∨ c = ' ') :
    keepChar c = c := by
  unfold keepChar
  rcases h with h | rfl
  · rw [if_pos (by simp [h])]
  · rw [if_pos (by decide)]

theorem mapCharId {f : Char → Char} : ∀ {l : List Char},
    (∀ c ∈ l, f c = c) → l.map f = l := by
  intro l
  induction l with
  | nil => intro _; rfl
  | cons a rest ih =>
    intro h
    rw [List.map_cons, h a (List.mem_cons_self _ _),
        ih (fun c hc => h c (List.mem_cons_of_mem _ hc))]

theorem flatMapCharId {f : Char → List Char} : ∀ {l : List Char},
    (∀ c ∈ l, f c = [c]) → l.flatMap f = l := by
  intro l
  induction l with
  | nil => intro _; rfl
  | cons a rest ih =>
    intro h
    rw [List.flatMap_cons, h a (List.mem_cons_self _ _),
        ih (fun c hc => h c (List.mem_cons_of_mem _ hc)), List.singleton_append]

theorem collapseGo_id : ∀ (l : List Char),
    (∀ c ∈ l, isAZ09 c = true ∨ c = ' ') → List.Chain' noTwoWs l →
    collapseGo l false = l ∧ (l.head? ≠ some ' ' → collapseGo l true = l) := by
  intro l
  induction l with
  | nil => intro _ _; exact ⟨rfl, fun _ => rfl⟩
  | cons a rest ih =>
    intro hmem hch
    have hrest := ih (fun c hc => hmem c (List.mem_cons_of_mem _ hc)) hch.tail
    by_cases ha : a = ' '
    · subst ha
      have hhead : rest.head? ≠ some ' ' := by
        intro hh
        exact (List.chain'_cons'.mp hch).1 ' ' hh ⟨by decide, by decide⟩
      refine ⟨?_, ?_⟩
      · rw [collapseGo, if_pos (by decide), cond_false, hrest.2 hhead]
      · intro hcontra
        simp at hcontra
    · have haz : isAZ09 a = true := by
        rcases hmem a (List.mem_cons_self _ _) with h | h
        · exact h
        · exact absurd h ha
      have hsp : pySpace a = false := pySpace_of_isAZ09 haz
      refine ⟨?_, ?_⟩ <;>
        · first
          | (intro _; rw [collapseGo, if_neg (by simp [hsp]), hrest.1])
          | rw [collapseGo, if_neg (by simp [hsp]), hrest.1]

theorem dropWhileIdOfHead {α} {p : α → Bool} {l : List α}
    (h : ∀ c, l.head? = some c → p c = false) : l.dropWhile p = l := by
  cases l with
  | nil => rfl
  | cons a rest =>
    rw [List.dropWhile_cons, if_neg (by simp [h a rfl])]

theorem pyStrip_id {l : List Char}
    (h1 : ∀ c, l.head? = some c → pySpace c = false)
    (h2 : ∀ c, l.getLast? = some c → pySpace c = false) :
    pyStripList l = l := by
  unfold pyStripList
  have h3 : l.reverse.dropWhile pySpace = l.reverse :=
    dropWhileIdOfHead (fun c hc => h2 c (by rwa [List.head?_reverse] at hc))
  rw [dropWhileIdOfHead h1, h3, List.reverse_reverse]

theorem normChars_idem (l : List Char) : normChars (normChars l) = normChars l := by
  generalize hz : normChars l = z
  have hm : ∀ c ∈ z, isAZ09 c = true ∨ c = ' ' := by
    rw [← hz]; exact fun c hc => normChars_mem hc
  have hh : ∀ c, z.head? = some c → pySpace c = false := by
    rw [← hz]; unfold normChars; exact fun c hc => pyStrip_head hc
  have hl : ∀ c, z.getLast? = some c → pySpace c = false := by
    rw [← hz]; unfold normChars; exact fun c hc => pyStrip_getLast hc
  have hch : List.Chain' noTwoWs z := by rw [← hz]; exact normChars_chain l
  show normChars z = z
  unfold normChars collapseWs
  rw [pyStrip_id hh hl,
      mapCharId (fun c hc => pyUpperChar_fix (hm c hc)),
      flatMapCharId (fun c hc => nfdChar_fix (hm c hc)),
      List.filter_eq_self.mpr (fun c hc => by rw [isMn_fix (hm c hc)]; rfl),
      mapCharId (fun c hc => keepChar_fix (hm c hc)),
      (collapseGo_id z hm hch).1,
      pyStrip_id hh hl]

/-! ## Claim theorems for the normalizer -/

/-- C4: for every input `x`, `norm_text x` contains only characters in
`[A-Z0-9 ]`, has no leading or trailing space and no two consecutive
spaces; a null/absent input produces the empty string rather than an
error; and `norm_text "Bogotá, D.C." = "BOGOTA D C"`. -/
theorem claim_C4 (x : Option String) :
    (∀ c ∈ (norm_text x).data, isAZ09 c = true ∨ c = ' ') ∧
    (norm_text x).data.head? ≠ some ' ' ∧
    (norm_text x).data.getLast? ≠ some ' ' ∧
    List.Chain' (fun a b => ¬(a = ' ' ∧ b = ' ')) (norm_text x).data ∧
    norm_text none = "" ∧
    norm_text (some "Bogotá, D.C.") = "BOGOTA D C" := by
  refine ⟨?_, ?_, ?_, ?_, rfl, by decide⟩
  · cases x with
    | none => intro c hc; simp [norm_text] at hc
    | some s => exact fun c hc => normChars_mem hc
  · cases x with
    | none => simp [norm_text]
    | some s => exact normChars_head s.data
  · cases x with
    | none => simp [norm_text]
    | some s => exact normChars_getLast s.data
  · cases x with
    | none => simp [norm_text]
    | some s =>
      refine (normChars_chain s.data).imp ?_
      intro a b hab hc
      obtain ⟨h1, h2⟩ := hc
      subst h1; subst h2
      exact hab ⟨by decide, by decide⟩

/-- Witness for C4: instantiates the character-set property at the
concrete input `"Bogotá, D.C."` and the concrete output character `B`. -/
theorem claim_C4_witness : isAZ09 'B' = true ∨ 'B' = ' ' :=
  (claim_C4 (some "Bogotá, D.C.")).1 'B' (by decide)

/-- C10: `norm_text` is idempotent — normalizing an already-normalized
string changes nothing.  (Purity is inherent to the embedding: the source
function only reads its argument and builds a new string.) -/
theorem claim_C10 (x : Option String) :
    norm_text (some (norm_text x)) = norm_text x := by
  cases x with
  | none => rfl
  | some s => exact congrArg String.mk (normChars_idem s.data)

/-! ## Claim C1: normalized department matching on ciclope / proyectos -/

theorem getD_append_len {α} (r : List α) (x d : α) :
    (r ++ [x]).getD r.length d = x := by
  rw [List.getD_eq_getElem?_getD, List.getElem?_append_right (Nat.le_refl _)]
  simp

/-- Under a present department column and no pre-existing `DEPT_NORM`
column, `deptNormStep` appends the derived column and filters on it. -/
theorem deptNormStep_fresh (t : Table) (dc dn : String) (i : Nat)
    (hi : t.colIdx dc = some i) (hfresh : t.colIdx "DEPT_NORM" = none) :
    deptNormStep t dc dn =
      .ok (⟨t.cols ++ ["DEPT_NORM"],
            t.rows.map (fun r => r ++ [Cell.str (normCell (r.getD i .null))])⟩,
           ⟨t.cols ++ ["DEPT_NORM"],
            (t.rows.map (fun r => r ++ [Cell.str (normCell (r.getD i .null))])).filter
              (fun r => r.getD t.cols.length .null == Cell.str dn)⟩) := by
  have hidx : ∀ rows' : List (List Cell),
      (⟨t.cols ++ ["DEPT_NORM"], rows'⟩ : Table).colIdx "DEPT_NORM"
        = some t.cols.length := by
    intro rows'
    unfold Table.colIdx at hfresh ⊢
    rw [List.findIdx?_append, hfresh]
    simp
  unfold deptNormStep deptNormSel
  rw [hi, hfresh]
  simp [hidx]

/-- C1: a row of `ciclope` (and likewise of `proyectos`) lands in the
department subset computed at app.py lines 110-114 exactly when the
normalization of its own `DEPARTAMENTO` cell equals the normalization of
the selected department; and normalization makes `"bogota"` equal to
`"BOGOTÁ"`, so that selection matches such a row. -/
theorem claim_C1 :
    (∀ (t : Table) (dept : String) (i : Nat) (t' sub : Table),
      t.colIdx "DEPARTAMENTO" = some i →
      t.colIdx "DEPT_NORM" = none →
      (∀ r ∈ t.rows, r.length = t.cols.length) →
      deptNormStep t "DEPARTAMENTO" (norm_text (some dept)) = .ok (t', sub) →
      ∀ r ∈ t.rows,
        ((r ++ [Cell.str (normCell (r.getD i .null))]) ∈ sub.rows ↔
          normCell (r.getD i .null) = norm_text (some dept))) ∧
    norm_text (some "bogota") = norm_text (some "BOGOTÁ") := by
  refine ⟨?_, by decide⟩
  intro t dept i t' sub hi hfresh halign hstep r hr
  rw [deptNormStep_fresh t "DEPARTAMENTO" (norm_text (some dept)) i hi hfresh] at hstep
  have hsub : sub =
      ⟨t.cols ++ ["DEPT_NORM"],
       (t.rows.map (fun r => r ++ [Cell.str (normCell (r.getD i .null))])).filter
         (fun r => r.getD t.cols.length .null == Cell.str (norm_text (some dept)))⟩ := by
    cases hstep
    rfl
  subst hsub
  show _ ∈ List.filter _ _ ↔ _
  rw [List.mem_filter]
  have hpred :
      ((r ++ [Cell.str (normCell (r.getD i .null))]).getD t.cols.length .null ==
        Cell.str (norm_text (some dept)))
      = (normCell (r.getD i .null) == norm_text (some dept)) := by
    rw [← halign r hr, getD_append_len]
    simp
  constructor
  · intro hmem
    have := hmem.2
    rw [hpred] at this
    exact beq_iff_eq.mp (by simpa using this)
  · intro heq
    refine ⟨List.mem_map_of_mem _ hr, ?_⟩
    rw [hpred]
    exact beq_iff_eq.mpr heq

/-- Witness for C1: the concrete one-row ciclope table whose department is
`"BOGOTÁ"`, filtered for the selection `"bogota"`, contains that row. -/
theorem claim_C1_witness :
    [Cell.str "BOGOTÁ", Cell.str "BOGOTA"] ∈
      (⟨["DEPARTAMENTO", "DEPT_NORM"],
        [[Cell.str "BOGOTÁ", Cell.str "BOGOTA"]]⟩ : Table).rows := by
  have h := (claim_C1.1 ⟨["DEPARTAMENTO"], [[Cell.str "BOGOTÁ"]]⟩ "bogota" 0
    ⟨["DEPARTAMENTO", "DEPT_NORM"], [[Cell.str "BOGOTÁ", Cell.str "BOGOTA"]]⟩
    ⟨["DEPARTAMENTO", "DEPT_NORM"], [[Cell.str "BOGOTÁ", Cell.str "BOGOTA"]]⟩
    (by decide) (by decide) (by decide) rfl
    [Cell.str "BOGOTÁ"] (by decide)).mpr (by decide)
  exact h

/-! ## Claim C2: raw matching on colcol / contrapartidas -/

theorem matchHere_lit : ∀ (w cs : List Char),
    matchHere (w.map RTok.lit) cs = w.isPrefixOf cs := by
  intro w
  induction w with
  | nil => intro cs; cases cs <;> rfl
  | cons a w ih =>
    intro cs
    cases cs with
    | nil => rfl
    | cons c cs =>
      show (tokMatch (.lit a) c && matchHere (w.map .lit) cs) = _
      rw [ih]
      rfl

theorem compilePat_no_dot {p : List Char} (h : '.' ∉ p) :
    compilePat p = p.map RTok.lit :=
  List.map_congr_left (fun c hc => by
    rw [if_neg (fun hcc => h (by rw [← hcc]; exact hc))])

theorem reSearch_lit (w : List Char) : ∀ (hay : List Char),
    reSearch (w.map RTok.lit) hay = substrB w hay := by
  intro hay
  induction hay with
  | nil =>
    show matchHere (w.map RTok.lit) [] = w.isEmpty
    cases w <;> rfl
  | cons c cs ih =>
    show (matchHere (w.map RTok.lit) (c :: cs) || reSearch (w.map RTok.lit) cs) = _
    rw [matchHere_lit, ih]
    rfl

theorem substrB_correct (n : List Char) : ∀ (h : List Char),
    substrB n h = true ↔ n <:+: h := by
  intro h
  induction h with
  | nil =>
    show n.isEmpty = true ↔ n <:+: []
    rw [List.isEmpty_eq_true, List.infix_nil]
  | cons c cs ih =>
    show (n.isPrefixOf (c :: cs) || substrB n cs) = true ↔ n <:+: c :: cs
    rw [Bool.or_eq_true, List.isPrefixOf_iff_prefix, ih, List.infix_cons_iff]

/-- C2 (amended): `colcolFilter` keeps exactly the rows where the
"developed in" cell (as a string) equals the selection exactly, or one of
the "participating"/"MAY" cells matches the selection interpreted as a
regular expression by `str.contains`; for a selection without the `.`
metacharacter that regex match is exactly literal substring containment.
`contrFilter` keeps exactly the rows whose raw `Departamento` cell equals
the selection.  Both are case- and accent-sensitive: selecting `"bogota"`
matches no row stored as `"BOGOTÁ"`. -/
theorem claim_C2 :
    (∀ (t : Table) (dept : String) (i1 i2 i3 : Nat) (out : Table),
      t.colIdx "DEPARTAMENTO EN EL QUE SE DESARROLLÓ" = some i1 →
      t.colIdx "DEPARTAMENTOS PARTICIPANTES" = some i2 →
      t.colIdx "DEPARTAMENTOS MAY" = some i3 →
      colcolFilter t dept = .ok out →
      ∀ r ∈ t.rows,
        (r ∈ out.rows ↔
          (cellAstypeStr (r.getD i1 .null) = dept ∨
           pdStrContains dept (r.getD i2 .null) = true ∨
           pdStrContains dept (r.getD i3 .null) = true))) ∧
    (∀ (pat s : String), '.' ∉ pat.data →
      (pdStrContains pat (Cell.str s) = true ↔ pat.data <:+: s.data)) ∧
    (∀ (t : Table) (dept : String) (i : Nat),
      t.colIdx "Departamento" = some i →
      ∀ r ∈ t.rows,
        (r ∈ (contrFilter t dept).rows ↔ r.getD i .null = Cell.str dept)) ∧
    colcolFilter
      ⟨["DEPARTAMENTO EN EL QUE SE DESARROLLÓ", "DEPARTAMENTOS PARTICIPANTES",
        "DEPARTAMENTOS MAY"],
       [[Cell.str "BOGOTÁ", Cell.str "", Cell.str ""]]⟩ "bogota"
      = .ok ⟨["DEPARTAMENTO EN EL QUE SE DESARROLLÓ", "DEPARTAMENTOS PARTICIPANTES",
              "DEPARTAMENTOS MAY"], []⟩ ∧
    contrFilter ⟨["Departamento"], [[Cell.str "BOGOTÁ"]]⟩ "bogota"
      = ⟨["Departamento"], []⟩ := by
  refine ⟨?_, ?_, ?_, rfl, rfl⟩
  · intro t dept i1 i2 i3 out h1 h2 h3 hstep r hr
    unfold colcolFilter at hstep
    rw [h1, h2, h3] at hstep
    cases hstep
    show _ ∈ List.filter _ _ ↔ _
    rw [List.mem_filter]
    constructor
    · intro hmem
      have hp := hmem.2
      simp only [Bool.or_eq_true, beq_iff_eq, or_assoc] at hp
      exact hp
    · intro hp
      refine ⟨hr, ?_⟩
      simp only [Bool.or_eq_true, beq_iff_eq, or_assoc]
      exact hp
  · intro pat s hdot
    unfold pdStrContains
    rw [compilePat_no_dot hdot, reSearch_lit]
    exact substrB_correct pat.data s.data
  · intro t dept i hi r hr
    unfold contrFilter
    rw [hi]
    show _ ∈ List.filter _ _ ↔ _
    rw [List.mem_filter]
    constructor
    · intro hmem
      exact beq_iff_eq.mp hmem.2
    · intro heq
      exact ⟨hr, beq_iff_eq.mpr heq⟩

/-- Witness for C2: the characterization applied to a concrete `colcol`
table — the row participates via a regex match of the selection in its
"participating departments" cell. -/
theorem claim_C2_witness :
    [Cell.str "X", Cell.str "CUNDINAMARCA BOGOTÁ", Cell.str ""] ∈
      (⟨["DEPARTAMENTO EN EL QUE SE DESARROLLÓ", "DEPARTAMENTOS PARTICIPANTES",
         "DEPARTAMENTOS MAY"],
        [[Cell.str "X", Cell.str "CUNDINAMARCA BOGOTÁ", Cell.str ""]]⟩ : Table).rows := by
  have h := (claim_C2.1
    ⟨["DEPARTAMENTO EN EL QUE SE DESARROLLÓ", "DEPARTAMENTOS PARTICIPANTES",
      "DEPARTAMENTOS MAY"],
     [[Cell.str "X", Cell.str "CUNDINAMARCA BOGOTÁ", Cell.str ""]]⟩
    "BOGOTÁ" 0 1 2
    ⟨["DEPARTAMENTO EN EL QUE SE DESARROLLÓ", "DEPARTAMENTOS PARTICIPANTES",
      "DEPARTAMENTOS MAY"],
     [[Cell.str "X", Cell.str "CUNDINAMARCA BOGOTÁ", Cell.str ""]]⟩
    (by decide) (by decide) (by decide) rfl
    [Cell.str "X", Cell.str "CUNDINAMARCA BOGOTÁ", Cell.str ""] (by decide)).mpr
    (Or.inr (Or.inl (by decide)))
  exact h

/-- Counterexample to C2 as stated: with the selection `"A.B"` (regex
metacharacter `.`), the code's `str.contains` matching includes a row
whose "participating departments" cell is `"AXB"`, even though none of the
three raw literal conditions of the claim holds for it. -/
theorem claim_C2_counterexample :
    colcolFilter
      ⟨["DEPARTAMENTO EN EL QUE SE DESARROLLÓ", "DEPARTAMENTOS PARTICIPANTES",
        "DEPARTAMENTOS MAY"],
       [[Cell.str "X", Cell.str "AXB", Cell.str ""]]⟩ "A.B"
      = .ok ⟨["DEPARTAMENTO EN EL QUE SE DESARROLLÓ", "DEPARTAMENTOS PARTICIPANTES",
              "DEPARTAMENTOS MAY"],
             [[Cell.str "X", Cell.str "AXB", Cell.str ""]]⟩ ∧
    "X" ≠ "A.B" ∧
    substrB "A.B".data "AXB".data = false ∧
    substrB "A.B".data "".data = false :=
  ⟨rfl, by decide, by decide, by decide⟩

/-! ## Claim C5: missing colcol columns -/

/-- C5 (code behaviour at the failing input): with the
`"DEPARTAMENTOS MAY"` column absent from `colcol`, the filter raises
(`DataFrame.get` returns the scalar default `""`, and `"".astype(str)`
raises `AttributeError`) instead of treating the column as contributing no
matches, contradicting the spec's error-handling contract. -/
theorem claim_C5_code_bug :
    colcolFilter
      ⟨["DEPARTAMENTO EN EL QUE SE DESARROLLÓ", "DEPARTAMENTOS PARTICIPANTES"],
       [[Cell.str "BOGOTÁ", Cell.str "BOGOTÁ"]]⟩ "BOGOTÁ"
      = .error "AttributeError: str object has no attribute astype" := rfl

/-! ## Claims C6 and C7: post-state of filtering, and where DEPT_NORM shows -/

theorem colIdx_mem {t : Table} {c : String} {j : Nat}
    (h : t.colIdx c = some j) : c ∈ t.cols := by
  unfold Table.colIdx at h
  have h2 : (t.cols.findIdx? (· = c)).isSome = true := by rw [h]; rfl
  rw [List.findIdx?_isSome] at h2
  rcases List.any_eq_true.mp h2 with ⟨x, hx, hp⟩
  have hxc : x = c := by simpa using hp
  exact hxc ▸ hx

/-- Decomposition of a successful run of the filter block into its steps. -/
theorem filterByDepartment_parts {ds : Dataset} {dept : String} {out : FilterOut}
    (h : filterByDepartment ds dept = .ok out) :
    ∃ infoSel,
      deptNormStep ds.infogeneral "Departamento" (norm_text (some dept))
        = .ok (out.infogeneral2, infoSel) ∧
      out.info = infoSel.head1 ∧
      deptNormStep ds.ciclope "DEPARTAMENTO" (norm_text (some dept))
        = .ok (out.ciclope2, out.cic_dept) ∧
      deptNormStep ds.proyectos "DEPARTAMENTO" (norm_text (some dept))
        = .ok (out.proyectos2, out.proj_dept) ∧
      colcolFilter ds.colcol dept = .ok out.colcol_dept ∧
      out.colcol2 = ds.colcol ∧
      out.contrapartidas2 = ds.contrapartidas ∧
      out.contr_dept = contrFilter ds.contrapartidas dept := by
  unfold filterByDepartment at h
  cases h1 : deptNormStep ds.infogeneral "Departamento" (norm_text (some dept)) with
  | error e => rw [h1] at h; cases h
  | ok p =>
    obtain ⟨info2, infoSel⟩ := p
    rw [h1] at h
    cases h2 : deptNormStep ds.ciclope "DEPARTAMENTO" (norm_text (some dept)) with
    | error e => rw [h2] at h; cases h
    | ok q =>
      obtain ⟨cic2, cicSel⟩ := q
      rw [h2] at h
      cases h3 : deptNormStep ds.proyectos "DEPARTAMENTO" (norm_text (some dept)) with
      | error e => rw [h3] at h; cases h
      | ok w =>
        obtain ⟨proj2, projSel⟩ := w
        rw [h3] at h
        cases h4 : colcolFilter ds.colcol dept with
        | error e => rw [h4] at h; cases h
        | ok colcolSel =>
          rw [h4] at h
          cases h
          exact ⟨infoSel, rfl, rfl, rfl, rfl, rfl, rfl, rfl, rfl⟩

/-- C6 (amended): computing the filtered subsets leaves `colcol` and
`contrapartidas` untouched, but rewrites `infogeneral`, `ciclope` and
`proyectos` in place by adding the derived `DEPT_NORM` column (appended
when not already present); all pre-existing columns and their cell values
are preserved — each stored row is the old row extended with the derived
cell. -/
theorem claim_C6_amended (ds : Dataset) (dept : String) (out : FilterOut)
    (h : filterByDepartment ds dept = .ok out) :
    out.colcol2 = ds.colcol ∧
    out.contrapartidas2 = ds.contrapartidas ∧
    (∀ i, ds.infogeneral.colIdx "Departamento" = some i →
      ds.infogeneral.colIdx "DEPT_NORM" = none →
      out.infogeneral2.cols = ds.infogeneral.cols ++ ["DEPT_NORM"] ∧
      out.infogeneral2.rows = ds.infogeneral.rows.map
        (fun r => r ++ [Cell.str (normCell (r.getD i .null))])) ∧
    (∀ i, ds.ciclope.colIdx "DEPARTAMENTO" = some i →
      ds.ciclope.colIdx "DEPT_NORM" = none →
      out.ciclope2.cols = ds.ciclope.cols ++ ["DEPT_NORM"] ∧
      out.ciclope2.rows = ds.ciclope.rows.map
        (fun r => r ++ [Cell.str (normCell (r.getD i .null))])) ∧
    (∀ i, ds.proyectos.colIdx "DEPARTAMENTO" = some i →
      ds.proyectos.colIdx "DEPT_NORM" = none →
      out.proyectos2.cols = ds.proyectos.cols ++ ["DEPT_NORM"] ∧
      out.proyectos2.rows = ds.proyectos.rows.map
        (fun r => r ++ [Cell.str (normCell (r.getD i .null))])) := by
  obtain ⟨infoSel, hinfo, _, hcic, hproj, _, hcol, hcontr, _⟩ :=
    filterByDepartment_parts h
  refine ⟨hcol, hcontr, ?_, ?_, ?_⟩
  · intro i hi hfresh
    rw [deptNormStep_fresh ds.infogeneral "Departamento" _ i hi hfresh] at hinfo
    injection hinfo with hpair
    rw [Prod.mk.injEq] at hpair
    exact ⟨by rw [← hpair.1], by rw [← hpair.1]⟩
  · intro i hi hfresh
    rw [deptNormStep_fresh ds.ciclope "DEPARTAMENTO" _ i hi hfresh] at hcic
    injection hcic with hpair
    rw [Prod.mk.injEq] at hpair
    exact ⟨by rw [← hpair.1], by rw [← hpair.1]⟩
  · intro i hi hfresh
    rw [deptNormStep_fresh ds.proyectos "DEPARTAMENTO" _ i hi hfresh] at hproj
    injection hproj with hpair
    rw [Prod.mk.injEq] at hpair
    exact ⟨by rw [← hpair.1], by rw [← hpair.1]⟩

/-- The concrete dataset used in the counterexamples: minimal tables with
the columns the filter block needs. -/
def ds0 : Dataset :=
  ⟨⟨["Departamento"], [[Cell.str "BOGOTÁ"]]⟩,
   ⟨[], []⟩,
   ⟨["DEPARTAMENTO"], [[Cell.str "BOGOTÁ"]]⟩,
   ⟨["DEPARTAMENTO EN EL QUE SE DESARROLLÓ", "DEPARTAMENTOS PARTICIPANTES",
     "DEPARTAMENTOS MAY"], []⟩,
   ⟨["Departamento"], []⟩,
   ⟨["DEPARTAMENTO"], [[Cell.str "BOGOTÁ"]]⟩⟩

/-- Counterexample to C6 as stated: computing the filtered subsets changes
the `ciclope` table — its column set gains the derived `DEPT_NORM`
column, so the loaded tables are not left unmodified. -/
theorem claim_C6_counterexample :
    (filterByDepartment ds0 "BOGOTÁ").map (fun out => out.ciclope2.cols)
      = .ok ["DEPARTAMENTO", "DEPT_NORM"] ∧
    ds0.ciclope.cols = ["DEPARTAMENTO"] ∧
    (["DEPARTAMENTO", "DEPT_NORM"] : List String) ≠ ["DEPARTAMENTO"] :=
  ⟨rfl, rfl, by decide⟩

/-- The filter block's concrete output on `ds0` with selection `BOGOTÁ`. -/
def out0 : FilterOut :=
  ⟨⟨["Departamento", "DEPT_NORM"], [[Cell.str "BOGOTÁ", Cell.str "BOGOTA"]]⟩,
   ⟨["DEPARTAMENTO", "DEPT_NORM"], [[Cell.str "BOGOTÁ", Cell.str "BOGOTA"]]⟩,
   ⟨["DEPARTAMENTO", "DEPT_NORM"], [[Cell.str "BOGOTÁ", Cell.str "BOGOTA"]]⟩,
   ⟨["DEPARTAMENTO EN EL QUE SE DESARROLLÓ", "DEPARTAMENTOS PARTICIPANTES",
     "DEPARTAMENTOS MAY"], []⟩,
   ⟨["Departamento"], []⟩,
   ⟨["Departamento", "DEPT_NORM"], [[Cell.str "BOGOTÁ", Cell.str "BOGOTA"]]⟩,
   ⟨["DEPARTAMENTO", "DEPT_NORM"], [[Cell.str "BOGOTÁ", Cell.str "BOGOTA"]]⟩,
   ⟨["DEPARTAMENTO", "DEPT_NORM"], [[Cell.str "BOGOTÁ", Cell.str "BOGOTA"]]⟩,
   ⟨["DEPARTAMENTO EN EL QUE SE DESARROLLÓ", "DEPARTAMENTOS PARTICIPANTES",
     "DEPARTAMENTOS MAY"], []⟩,
   ⟨["Departamento"], []⟩⟩

/-- Witness for C6 (amended), at the concrete dataset `ds0`. -/
theorem claim_C6_witness :
    out0.colcol2 = ds0.colcol ∧
    out0.ciclope2.cols = ds0.ciclope.cols ++ ["DEPT_NORM"] := by
  have h := claim_C6_amended ds0 "BOGOTÁ" out0 rfl
  exact ⟨h.1, (h.2.2.2.1 0 rfl rfl).1⟩

/-- Any successful `deptNormStep` leaves the `DEPT_NORM` column in the
subset's column list (whether it was appended or overwritten). -/
theorem deptNormSel_cols {T : Table} {dn : String} {t' sub : Table}
    (h : deptNormSel T dn = .ok (t', sub)) : sub.cols = T.cols := by
  unfold deptNormSel at h
  cases h2 : T.colIdx "DEPT_NORM" with
  | none => rw [h2] at h; cases h
  | some k =>
    rw [h2] at h
    injection h with hpair
    rw [Prod.mk.injEq] at hpair
    rw [← hpair.2]

theorem deptNormStep_memDN {t : Table} {dc dn : String} {t' sub : Table}
    (h : deptNormStep t dc dn = .ok (t', sub)) : "DEPT_NORM" ∈ sub.cols := by
  unfold deptNormStep at h
  cases hi : t.colIdx dc with
  | none => rw [hi] at h; cases h
  | some i =>
    rw [hi] at h
    cases hf : t.colIdx "DEPT_NORM" with
    | some j =>
      rw [hf] at h
      rw [deptNormSel_cols h]
      exact colIdx_mem hf
    | none =>
      rw [hf] at h
      rw [deptNormSel_cols h]
      exact List.mem_append_right _ (List.mem_singleton.mpr rfl)

/-- The tab-2 search filter never changes the column list. -/
theorem tab2Df_cols (t : Table) (s : String) : (tab2Df t s).cols = t.cols := by
  unfold tab2Df
  split
  · split
    · rfl
    · rfl
  · rfl

/-- C7 (amended): `DEPT_NORM` is used for the equality comparison and the
tab-1 "full record" view does drop it, but the tab-2 project listing that
is displayed and exported to CSV retains the `DEPT_NORM` column. -/
theorem claim_C7_amended (ds : Dataset) (dept searchRaw : String) (out : FilterOut)
    (h : filterByDepartment ds dept = .ok out) :
    "DEPT_NORM" ∈ (tab2Df out.proj_dept searchRaw).cols ∧
    ∀ p ∈ tab1Detail out.info, p.1 ≠ "DEPT_NORM" := by
  obtain ⟨infoSel, _, _, _, hproj, _, _, _, _⟩ := filterByDepartment_parts h
  constructor
  · rw [tab2Df_cols]
    exact deptNormStep_memDN hproj
  · intro p hp heq
    have hpred := (List.mem_filter.mp hp).2
    rw [heq] at hpred
    simp at hpred
    exact hpred.2 (by decide)

/-- Counterexample to C7 as stated: on the concrete dataset, the exported
CSV of the filtered project listing contains the `DEPT_NORM` column and
its derived value. -/
theorem claim_C7_counterexample :
    (filterByDepartment ds0 "BOGOTÁ").map
        (fun out => (tab2Df out.proj_dept "").cols)
      = .ok ["DEPARTAMENTO", "DEPT_NORM"] ∧
    (filterByDepartment ds0 "BOGOTÁ").map
        (fun out => (tab2Export out.proj_dept "BOGOTÁ" "").2)
      = .ok "DEPARTAMENTO,DEPT_NORM\nBOGOTÁ,BOGOTA\n" ∧
    "DEPT_NORM" ∈ (["DEPARTAMENTO", "DEPT_NORM"] : List String) :=
  ⟨rfl, rfl, by decide⟩

/-- Witness for C7 (amended), at the concrete dataset `ds0`. -/
theorem claim_C7_witness :
    "DEPT_NORM" ∈ (tab2Df out0.proj_dept "").cols :=
  (claim_C7_amended ds0 "BOGOTÁ" "" out0 rfl).1

/-! ## Claim C8: the named-table loader -/

theorem firstNamedGrid_eq_none (wb : List Sheet) (name : String) :
    firstNamedGrid wb name = none ↔ ∀ ws ∈ wb, ws.tables.lookup name = none := by
  induction wb with
  | nil => simp [firstNamedGrid]
  | cons ws rest ih =>
    cases hl : ws.tables.lookup name with
    | some g =>
      constructor
      · intro h
        rw [firstNamedGrid, hl] at h
        cases h
      · intro h
        have h2 := h ws (List.mem_cons_self _ _)
        rw [hl] at h2
        cases h2
    | none =>
      constructor
      · intro h
        rw [firstNamedGrid, hl] at h
        intro ws2 hws
        rcases List.mem_cons.mp hws with rfl | hmem
        · exact hl
        · exact (ih.mp h) ws2 hmem
      · intro h
        rw [firstNamedGrid, hl]
        exact ih.mpr (fun ws2 hws => h ws2 (List.mem_cons_of_mem _ hws))

theorem read_named_table_none (wb : List Sheet) (name : String)
    (h : firstNamedGrid wb name = none) :
    read_named_table wb name
      = .error ("KeyError: No encontré la tabla: " ++ name) := by
  induction wb with
  | nil => rfl
  | cons ws rest ih =>
    cases hl : ws.tables.lookup name with
    | some g => rw [firstNamedGrid, hl] at h; cases h
    | none =>
      rw [firstNamedGrid, hl] at h
      rw [read_named_table, hl]
      exact ih h

theorem read_named_table_some (wb : List Sheet) (name : String) (g : Grid)
    (h : firstNamedGrid wb name = some g) :
    read_named_table wb name = .ok ⟨g.header, g.body⟩ := by
  induction wb with
  | nil => cases h
  | cons ws rest ih =>
    cases hl : ws.tables.lookup name with
    | some g2 =>
      rw [firstNamedGrid, hl] at h
      injection h with hg
      rw [read_named_table, hl, hg]
    | none =>
      rw [firstNamedGrid, hl] at h
      rw [read_named_table, hl]
      exact ih h

/-- C8: the loader fails (with the `KeyError` the spec calls
`TableNotFoundError`) exactly when no sheet of the workbook defines a
table with the requested name; when some sheet does, it returns the
first such table's header row as the column labels and the remaining
rows as the records, without failing. -/
theorem claim_C8 :
    (∀ (wb : List Sheet) (name : String),
      firstNamedGrid wb name = none ↔ ∀ ws ∈ wb, ws.tables.lookup name = none) ∧
    (∀ (wb : List Sheet) (name : String),
      firstNamedGrid wb name = none →
        read_named_table wb name
          = .error ("KeyError: No encontré la tabla: " ++ name)) ∧
    (∀ (wb : List Sheet) (name : String) (g : Grid),
      firstNamedGrid wb name = some g →
        read_named_table wb name = .ok ⟨g.header, g.body⟩) :=
  ⟨firstNamedGrid_eq_none, read_named_table_none, read_named_table_some⟩

/-- Witness for C8: a concrete two-sheet workbook where the second sheet
defines `ciclope`; the loader returns its header and body. -/
theorem claim_C8_witness :
    read_named_table
      [⟨[("plan", ⟨["X"], []⟩)]⟩,
       ⟨[("ciclope", ⟨["DEPARTAMENTO"], [[Cell.str "BOGOTÁ"]]⟩)]⟩] "ciclope"
      = .ok ⟨["DEPARTAMENTO"], [[Cell.str "BOGOTÁ"]]⟩ :=
  claim_C8.2.2
    [⟨[("plan", ⟨["X"], []⟩)]⟩,
     ⟨[("ciclope", ⟨["DEPARTAMENTO"], [[Cell.str "BOGOTÁ"]]⟩)]⟩] "ciclope"
    ⟨["DEPARTAMENTO"], [[Cell.str "BOGOTÁ"]]⟩ rfl

/-! ## Claim C9: the CSV export -/

theorem tab2Df_sub (t : Table) (s : String) : (tab2Df t s).rows.Sublist t.rows := by
  unfold tab2Df
  split
  · split
    · exact List.filter_sublist _
    · exact List.Sublist.refl _
  · exact List.Sublist.refl _

/-- C9: the download serializes the currently displayed (search-filtered)
project listing as-is — same column list, data rows a subsequence of the
filtered listing's rows in their original order, header line first — under
the name `proyectos_aod_<department>.csv`; with zero matching rows the
file is exactly the header line.  (The source UTF-8-encodes this text
with `.encode("utf-8")`.) -/
theorem claim_C9 (p : Table) (dept searchRaw : String) :
    (tab2Export p dept searchRaw).1 = "proyectos_aod_" ++ dept ++ ".csv" ∧
    (tab2Df p searchRaw).cols = p.cols ∧
    (tab2Df p searchRaw).rows.Sublist p.rows ∧
    (∃ rest, (tab2Export p dept searchRaw).2
        = csvRow (tab2Df p searchRaw).cols ++ rest) ∧
    (p.rows = [] → (tab2Export p dept searchRaw).2 = csvRow p.cols) := by
  refine ⟨rfl, tab2Df_cols p searchRaw, tab2Df_sub p searchRaw, ⟨_, rfl⟩, ?_⟩
  intro hrows
  have hdf : tab2Df p searchRaw = p := by
    unfold tab2Df
    rw [if_neg]
    intro hcond
    exact hcond.2 hrows
  show to_csv (tab2Df p searchRaw) = csvRow p.cols
  rw [hdf]
  unfold to_csv
  rw [hrows]
  simp [String.join]

/-- Witness for C9: exporting an empty filtered listing with one column
produces just the header line. -/
theorem claim_C9_witness :
    (tab2Export ⟨["NOMBRE INTERVENCION"], []⟩ "BOGOTÁ" "").2
      = "NOMBRE INTERVENCION\n" :=
  ((claim_C9 ⟨["NOMBRE INTERVENCION"], []⟩ "BOGOTÁ" "").2.2.2.2 rfl).trans
    (by decide)

/-! ## Claim C3: `top_by_sum` -/

/-- C3: `top_by_sum` returns the empty result on an empty table or a
missing column regardless of `n`; otherwise its length is
`min n (number of distinct group keys)`, its summed values are sorted in
descending order, a null group key forms its own group (it appears among
the result's group keys whenever `n` covers all groups), and the worked
example `[(A,10),(B,30),(A,5)]` with `n = 5` gives `[(B,30),(A,15)]`. -/
theorem claim_C3 :
    (∀ (t : Table) (g v : String) (n : Nat),
      t.rows = [] ∨ t.colIdx g = none ∨ t.colIdx v = none →
      top_by_sum t g v n = []) ∧
    (∀ (t : Table) (g v : String) (n : Nat) (gi vi : Nat),
      t.colIdx g = some gi → t.colIdx v = some vi → t.rows ≠ [] →
      (top_by_sum t g v n).length
          = min n ((t.rows.map (fun r => r.getD gi .null)).dedup.length) ∧
      List.Pairwise (fun a b : Cell × Int => b.2 ≤ a.2) (top_by_sum t g v n) ∧
      (Cell.null ∈ t.rows.map (fun r => r.getD gi .null) →
        (t.rows.map (fun r => r.getD gi .null)).dedup.length ≤ n →
        Cell.null ∈ (top_by_sum t g v n).map Prod.fst)) ∧
    top_by_sum
      ⟨["g", "v"], [[Cell.str "A", Cell.num 10], [Cell.str "B", Cell.num 30],
                    [Cell.str "A", Cell.num 5]]⟩ "g" "v" 5
      = [(Cell.str "B", 30), (Cell.str "A", 15)] := by
  refine ⟨?_, ?_, by decide⟩
  · intro t g v n h
    unfold top_by_sum
    rcases h with h | h | h
    · rw [if_pos (by simp [h])]
    · by_cases he : t.rows.isEmpty = true
      · rw [if_pos he]
      · rw [if_neg he, h]
    · by_cases he : t.rows.isEmpty = true
      · rw [if_pos he]
      · rw [if_neg he, h]
        cases t.colIdx g <;> rfl
  · intro t g v n gi vi hg hv hrows
    have hne : ¬ (t.rows.isEmpty = true) := by
      simp [List.isEmpty_eq_true, hrows]
    unfold top_by_sum
    rw [if_neg hne, hg, hv]
    refine ⟨?_, ?_, ?_⟩
    · rw [List.length_take, (List.perm_insertionSort descBy _).length_eq,
          List.length_map]
    · exact List.Pairwise.sublist (List.take_sublist n _)
        (List.sorted_insertionSort descBy _)
    · intro hnull hlen
      have h1 : Cell.null ∈ (t.rows.map (fun r => r.getD gi .null)).dedup :=
        List.mem_dedup.mpr hnull
      have h2 : Cell.null ∈
          ((t.rows.map (fun r => r.getD gi .null)).dedup.map (fun k =>
            (k, ((t.rows.filter (fun r => r.getD gi .null == k)).map
                (fun r => cellNum (r.getD vi .null))).sum))).map Prod.fst :=
        List.mem_map.mpr ⟨_, List.mem_map_of_mem _ h1, rfl⟩
      have h3 := ((List.perm_insertionSort descBy _).map Prod.fst).mem_iff.mpr h2
      have hle : (List.insertionSort descBy
          ((t.rows.map (fun r => r.getD gi .null)).dedup.map (fun k =>
            (k, ((t.rows.filter (fun r => r.getD gi .null == k)).map
                (fun r => cellNum (r.getD vi .null))).sum)))).length ≤ n := by
        rw [(List.perm_insertionSort descBy _).length_eq, List.length_map]
        exact hlen
      show Cell.null ∈ (List.take n (List.insertionSort descBy
          ((t.rows.map (fun r => r.getD gi .null)).dedup.map (fun k =>
            (k, ((t.rows.filter (fun r => r.getD gi .null == k)).map
                (fun r => cellNum (r.getD vi .null))).sum))))).map Prod.fst
      rw [List.take_of_length_le hle]
      exact h3

/-- Witness for C3: the length property instantiated at the worked
example (five requested groups, two distinct keys). -/
theorem claim_C3_witness :
    (top_by_sum
      ⟨["g", "v"], [[Cell.str "A", Cell.num 10], [Cell.str "B", Cell.num 30],
                    [Cell.str "A", Cell.num 5]]⟩ "g" "v" 5).length
      = min 5 ((([[Cell.str "A", Cell.num 10], [Cell.str "B", Cell.num 30],
                  [Cell.str "A", Cell.num 5]] : List (List Cell)).map
            (fun r => r.getD 0 .null)).dedup.length) :=
  (claim_C3.2.1
    ⟨["g", "v"], [[Cell.str "A", Cell.num 10], [Cell.str "B", Cell.num 30],
                  [Cell.str "A", Cell.num 5]]⟩ "g" "v" 5 0 1
    rfl rfl (by decide)).1

end Ficha
